import Mathlib

/-!
# Verification of the TR18SNebula version-strategy resolver and artifact engine

Shallow embedding of the NeoForge resolver core of the repository:

* `VersionSegmentedRegistry.getNeoForgeResolver` (src/unnamed/part_000)
* `NeoForgeGradle2Adapter` (src/unnamed/part_002, first part)
* `NeoForgeResolver.checkSecurity` (src/unnamed/part_002, second part)
* `NeoForgeGradle3Adapter` (src/src/resolver/neoforge/adapter/NeoForgeGradle3.resolver.ts)

Classes that the source imports from elsewhere in the repository but that are
not part of the excerpt (`VersionUtil`, `MinecraftVersion`, `MavenUtil`,
`LibRepoStructure`, `PackXZExtractWrapper`, the artifact-descriptor builder)
are modelled from the spec, each with a doc comment saying so.  Filesystem
state is explicit: a `FileSys` value maps paths (component lists) to optional
byte contents, and every embedded operation threads it and reports its
download / external-tool effects in its result.
-/

namespace TR18SNebula

/-- Byte buffers (Node `Buffer`) are modelled as lists of naturals. -/
abbrev Bytes := List Nat

/-- Filesystem paths are modelled as lists of path components; `join` is
list append.  The source builds paths with `path.join`. -/
abbrev FsPath := List String

/-- JS `String.prototype.startsWith`, modelled on the character lists of the
two strings. -/
def strStartsWith (s pre : String) : Bool :=
  List.isPrefixOf pre.data s.data

/-- Split a character list on a separator character (JS `split(sep)`). -/
def splitOnChar (sep : Char) : List Char → List (List Char)
  | [] => [[]]
  | c :: rest =>
    let r := splitOnChar sep rest
    if c == sep then [] :: r
    else
      match r with
      | [] => [[c]]
      | h :: t => (c :: h) :: t

/-- JS `split(':')` on a string. -/
def strSplitOnColon (s : String) : List String :=
  (splitOnChar ':' s.data).map fun cs => String.mk cs

/-- Split a character list at the first occurrence of a pattern:
`some (before, after)`, or `none` when the pattern does not occur. -/
def breakOnAux (pat : List Char) : List Char → Option (List Char × List Char)
  | [] => if pat.isEmpty then some ([], []) else none
  | c :: rest =>
    if List.isPrefixOf pat (c :: rest) then
      some ([], (c :: rest).drop pat.length)
    else
      match breakOnAux pat rest with
      | some pp => some (c :: pp.1, pp.2)
      | none => none

/-- JS `String.prototype.includes`. -/
def strIncludes (s pat : String) : Bool :=
  (breakOnAux pat.data s.data).isSome

/-- JS `String.prototype.replace` with a string pattern: replace the first
occurrence only. -/
def strReplaceFirst (s pat rep : String) : String :=
  match breakOnAux pat.data s.data with
  | some pp => String.mk (pp.1 ++ rep.data ++ pp.2)
  | none => s

/-- `tmpFileName.substring(0, tmpFileName.indexOf('.pack.xz'))` for names
that contain the compressed suffix (every queued file does). -/
def stripPackXZ (s : String) : String :=
  match breakOnAux ".pack.xz".data s.data with
  | some pp => String.mk pp.1
  | none => s

/-- A snapshot of the local disk: each path either holds bytes or is absent.
`fs-extra`'s `pathExists` / `fs.readFile` / writes are interpreted against it. -/
structure FileSys where
  files : FsPath → Option Bytes

/-- `pathExists` / `artifactExists`: a path exists when it holds contents. -/
def FileSys.pathExists (fs : FileSys) (p : FsPath) : Bool :=
  (fs.files p).isSome

/-- `readFile`: reading an absent path is modelled as the empty buffer (the
embedded code only reads paths it has checked or just written). -/
def FileSys.readFile (fs : FileSys) (p : FsPath) : Bytes :=
  (fs.files p).getD []

/-- Writing one file (the effect of a completed download or copy). -/
def FileSys.write (fs : FileSys) (p : FsPath) (b : Bytes) : FileSys :=
  ⟨fun q => if q = p then some b else fs.files q⟩

/-- `fs-extra`'s `remove` on a directory: every path at or below the
directory is gone afterwards. -/
def FileSys.removeDir (fs : FileSys) (dir : FsPath) : FileSys :=
  ⟨fun q => if List.isPrefixOf dir q then none else fs.files q⟩

/-- Modelled from the spec (§2 Artifact Descriptor Builder): the checksum
functions from `crypto.createHash` are abstract hash functions over bytes. -/
structure HashModel where
  sha1 : Bytes → String
  md5 : Bytes → String

/-- Module artifact descriptor: size, checksum, source URL (§3 Module,
helios-distribution-types `Artifact`). -/
structure Artifact where
  size : Nat
  MD5 : String
  url : String
deriving DecidableEq, Repr

/-- Modelled from the spec (§2, §4.2 `buildDescriptor`): the descriptor is a
pure function of the bytes and the URL; the size is the byte count. -/
def generateArtifact (H : HashModel) (buf : Bytes) (url : String) : Artifact :=
  { size := buf.length, MD5 := H.md5 buf, url := url }

/-- The `helios-distribution-types` module type tags used by the source. -/
inductive ModuleType where
  | NeoForgeHosted
  | VersionManifest
  | Library
deriving DecidableEq, Repr

/-- A node of the output module tree (§3 Module). -/
structure Module where
  id : String
  name : String
  type : ModuleType
  classpath : Bool := true
  artifact : Artifact
  subModules : List Module := []
deriving Repr

/-- Modelled from the spec (§3 Game Version): a structured semantic version
`major.minor.patch`; the `MinecraftVersion` class itself is not part of the
excerpt. -/
structure MinecraftVersion where
  major : Nat
  minor : Nat
  patch : Nat
deriving DecidableEq, Repr

/-- Modelled from the spec (§3): ordering on game versions is lexicographic
on (major, minor, patch); used by `isExecutableJar`. -/
def MinecraftVersion.isGreaterThanOrEqualTo (a b : MinecraftVersion) : Bool :=
  a.major > b.major ||
    (a.major == b.major &&
      (a.minor > b.minor || (a.minor == b.minor && a.patch ≥ b.patch)))

/-- Modelled from the spec: `VersionUtil` is imported from
`../util/VersionUtil.js`, which is not part of the excerpt.  Its three
functions used by this core are kept abstract, so theorems about the
adapters hold for every possible behaviour of the missing code.
`versionGte`'s second argument is an `Option` because the source passes it
`patchMatrix[minor]`, which may be JS `undefined`. -/
structure VersionUtilModel where
  isOneDotTwelveFG2 : String → Bool
  isVersionAcceptable : MinecraftVersion → List Nat → Bool
  versionGte : String → Option String → Bool

/-! ## Strategy version predicates and the version-segmented registry -/

/-- `NeoForgeGradle2Adapter.isForVersion` (src/unnamed/part_002 lines 21-26). -/
def NeoForgeGradle2Adapter.isForVersion (U : VersionUtilModel)
    (version : MinecraftVersion) (libraryVersion : String) : Bool :=
  if version.minor == 12 && !(U.isOneDotTwelveFG2 libraryVersion) then
    false
  else
    U.isVersionAcceptable version [7, 8, 9, 10, 11, 12]

/-- `NeoForgeGradle3Adapter.isForVersion`
(NeoForgeGradle3.resolver.ts lines 32-37). -/
def NeoForgeGradle3Adapter.isForVersion (U : VersionUtilModel)
    (version : MinecraftVersion) (libraryVersion : String) : Bool :=
  if version.minor == 12 && U.isOneDotTwelveFG2 libraryVersion then
    false
  else
    U.isVersionAcceptable version [12, 13, 14, 15, 16, 17, 18, 19, 20, 21]

/-- Tag identifying which adapter class the registry constructed. -/
inductive AdapterKind where
  | gradle2
  | gradle3
deriving DecidableEq, Repr

/-- `VersionSegmentedRegistry.NEOFORGE_ADAPTER_IMPL`
(src/unnamed/part_000 lines 24-27): the fixed, ordered table of
(adapter class, version predicate) entries. -/
def VersionSegmentedRegistry.NEOFORGE_ADAPTER_IMPL (U : VersionUtilModel) :
    List (AdapterKind × (MinecraftVersion → String → Bool)) :=
  [(AdapterKind.gradle2, NeoForgeGradle2Adapter.isForVersion U),
   (AdapterKind.gradle3, NeoForgeGradle3Adapter.isForVersion U)]

/-- The `for (const impl of ...) if (impl.isForVersion(...)) return new impl(...)`
loop shared by all registry getters: first entry whose predicate accepts
wins; an empty remainder throws. -/
def VersionSegmentedRegistry.selectFrom
    (impls : List (AdapterKind × (MinecraftVersion → String → Bool)))
    (minecraftVersion : MinecraftVersion) (neoforgeVersion : String) :
    Except String AdapterKind :=
  match impls with
  | [] => Except.error "No forge resolver found for Minecraft version!"
  | (kind, pred) :: rest =>
    if pred minecraftVersion neoforgeVersion then
      Except.ok kind
    else
      VersionSegmentedRegistry.selectFrom rest minecraftVersion neoforgeVersion

/-- `VersionSegmentedRegistry.getNeoForgeResolver`
(src/unnamed/part_000 lines 66-81). -/
def VersionSegmentedRegistry.getNeoForgeResolver (U : VersionUtilModel)
    (minecraftVersion : MinecraftVersion) (neoforgeVersion : String) :
    Except String AdapterKind :=
  VersionSegmentedRegistry.selectFrom
    (VersionSegmentedRegistry.NEOFORGE_ADAPTER_IMPL U) minecraftVersion neoforgeVersion

/-! ## Security gate -/

/-- `patchMatrix` of `NeoForgeResolver.checkSecurity`
(src/unnamed/part_002 lines 295-298): a record with keys 21 and 20 only;
JS indexing with any other minor yields `undefined`, modelled as `none`. -/
def patchMatrix : Nat → Option String
  | 21 => some "21.1.123"
  | 20 => some "47.1.106"
  | _ => none

/-- `NeoForgeResolver.checkSecurity` (src/unnamed/part_002 lines 285-337),
reduced to the decision it makes: whether the `unsafe` branch (advisory
banner plus 15-second busy-wait) runs.  The branch neither throws nor
mutates resolver state in the source; the only observable is this flag. -/
def checkSecurityFires (U : VersionUtilModel)
    (minecraftVersion : MinecraftVersion) (neoforgeVersion : String) : Bool :=
  let major := minecraftVersion.major
  let minor := minecraftVersion.minor
  let isVulnerable := major == 1 && (minor ≤ 18 && minor ≥ 12)
  let hasPatch := major == 1 && minor ≥ 12
  if isVulnerable then
    if hasPatch then
      !(U.versionGte neoforgeVersion (patchMatrix minor))
    else
      true
  else
    false

/-! ## Installer-output verification (Gradle3, installer-mediated path) -/

/-- `NeoForgeGradle3Adapter.getVersionManifestPath`
(NeoForgeGradle3.resolver.ts lines 345-349):
`join(installerOutputDir, 'versions', versionName, versionName + '.json')`.
`versionName` comes from the version repository structure, which is outside
the excerpt, so it is a parameter here. -/
def getVersionManifestPath (installerOutputDir : FsPath) (versionName : String) : FsPath :=
  installerOutputDir ++ ["versions", versionName, versionName ++ ".json"]

/-- `NeoForgeGradle3Adapter.verifyInstallerRan` (lines 351-358): when the
expected generated manifest file is missing, the whole installer output
directory is removed and then the error is raised; when it is present the
disk is untouched and no error is raised. -/
def verifyInstallerRan (fs : FileSys) (installerOutputDir : FsPath)
    (versionName : String) : FileSys × Except String Unit :=
  let versionManifestPath := getVersionManifestPath installerOutputDir versionName
  if !(fs.pathExists versionManifestPath) then
    (fs.removeDir installerOutputDir,
     Except.error "NeoForge was either not installed or installed to the wrong location.")
  else
    (fs, Except.ok ())

/-! ## Expected-file reconciliation (Gradle3, installer-mediated path) -/

/-- Modelled from the spec: the `LibRepoStructure` group/artifact constants
referenced by `configure`.  The class is outside the excerpt; only the
distinctness of the artifact names matters below. -/
def NEOFORGE_GROUP : String := "net.neoforged"

/-- Modelled from the spec: see `NEOFORGE_GROUP`. -/
def NEOFORGE_ARTIFACT : String := "neoforge"

/-- Modelled from the spec: see `NEOFORGE_GROUP`. -/
def NEOFMLCORE_ARTIFACT : String := "fmlcore"

/-- Modelled from the spec: see `NEOFORGE_GROUP`. -/
def FMLCORE_ARTIFACT : String := "fmlcore"

/-- Modelled from the spec: see `NEOFORGE_GROUP`. -/
def JAVAFMLLANGUAGE_ARTIFACT : String := "javafmllanguage"

/-- Modelled from the spec: see `NEOFORGE_GROUP`. -/
def MCLANGUAGE_ARTIFACT : String := "mclanguage"

/-- Modelled from the spec: see `NEOFORGE_GROUP`. -/
def LOWCODELANGUAGE_ARTIFACT : String := "lowcodelanguage"

/-- Modelled from the spec: see `NEOFORGE_GROUP`. -/
def MINECRAFT_GROUP : String := "net.minecraft"

/-- Modelled from the spec: see `NEOFORGE_GROUP`. -/
def MINECRAFT_CLIENT_ARTIFACT : String := "client"

/-- One Expected-File Entry of the `generatedFiles` list
(NeoForgeGradle3.resolver.ts lines 16-24).  Optional TS fields are
`Option`s; JS falsy defaulting (`!entry.skipIfNotPresent`,
`entry.classpath ?? true`) is applied at the use sites. -/
structure GeneratedFile where
  name : String
  group : String
  artifact : String
  version : String
  classifiers : List (Option String)
  skipIfNotPresent : Option Bool := none
  classpath : Option Bool := none
deriving DecidableEq, Repr

/-- Modelled from the spec: `MavenUtil.mavenComponentsToIdentifier` (class
outside the excerpt) renders a coordinate as its identifier string. -/
def mavenComponentsToIdentifier (group artifact version : String)
    (classifier : Option String) (extension : Option String) : String :=
  group ++ ":" ++ artifact ++ ":" ++ version
    ++ (match classifier with | some c => ":" ++ c | none => "")
    ++ (match extension with | some e => "@" ++ e | none => "")

/-- Modelled from the spec: `MavenUtil.mavenComponentsAsNormalizedPath`
(class outside the excerpt) maps a coordinate to a repository-relative
path. -/
def mavenComponentsAsNormalizedPath (group artifact version : String)
    (classifier : Option String) : FsPath :=
  [group, artifact, version,
   artifact ++ "-" ++ version
     ++ (match classifier with | some c => "-" ++ c | none => "") ++ ".jar"]

/-- Modelled from the spec (§6 Artifact Store `urlFor`):
`getArtifactUrlByComponents` of the library repository structure. -/
def getArtifactUrlByComponents (baseUrl group artifact version : String)
    (classifier : Option String) : String :=
  baseUrl ++ "/" ++
    String.intercalate "/" (mavenComponentsAsNormalizedPath group artifact version classifier)

/-- Modelled from the spec (§6 Artifact Store `localPathFor`):
`getArtifactByComponents` of the library repository structure — the
permanent-storage path of a coordinate, distinguished from installer
output by its root component. -/
def getArtifactByComponentsPath (group artifact version : String)
    (classifier : Option String) : FsPath :=
  "lib-repo" :: mavenComponentsAsNormalizedPath group artifact version classifier

/-- `NeoForgeGradle3Adapter.isExecutableJar` (lines 39-41). -/
def NeoForgeGradle3Adapter.isExecutableJar (version : MinecraftVersion) : Bool :=
  version.isGreaterThanOrEqualTo ⟨1, 20, 3⟩

/-- `NeoForgeGradle3Adapter.WILDCARD_MCP_VERSION` (line 30). -/
def WILDCARD_MCP_VERSION : String := "$\x7bmcpVersion\x7d"

/-- Modelled from the spec: the string form `major.minor.patch` of a game
version, used by the `${minecraftVersion}-${mcpVersion}` template. -/
def MinecraftVersion.toVersionString (v : MinecraftVersion) : String :=
  toString v.major ++ "." ++ toString v.minor ++ "." ++ toString v.patch

/-- The result of `configure`: an absent `generatedFiles` field is the
empty list (`process` only tests `!= null && length > 0`). -/
structure ConfigureResult where
  generatedFiles : List GeneratedFile
  wildcardsInUse : List String
deriving Repr

/-- `NeoForgeGradle3Adapter.configure` (lines 59-240): builds the
Expected-File Entry table for the target game version.  The 1.17+ and
1.18+ additions are `unshift`s, i.e. they go to the front of the list. -/
def NeoForgeGradle3Adapter.configure (U : VersionUtilModel)
    (minecraftVersion : MinecraftVersion) (artifactVersion : String) : ConfigureResult :=
  if NeoForgeGradle3Adapter.isExecutableJar minecraftVersion then
    { generatedFiles := [
        { name := "universal jar", group := NEOFORGE_GROUP, artifact := NEOFORGE_ARTIFACT,
          version := artifactVersion, classifiers := [some "universal"] },
        { name := "client jar", group := NEOFORGE_GROUP, artifact := NEOFORGE_ARTIFACT,
          version := artifactVersion, classifiers := [some "client"] },
        { name := "client shim", group := NEOFORGE_GROUP, artifact := NEOFORGE_ARTIFACT,
          version := artifactVersion, classifiers := [some "shim"], classpath := some false },
        { name := "fmlcore", group := NEOFORGE_GROUP, artifact := NEOFMLCORE_ARTIFACT,
          version := artifactVersion, classifiers := [none] },
        { name := "javafmllanguage", group := NEOFORGE_GROUP, artifact := JAVAFMLLANGUAGE_ARTIFACT,
          version := artifactVersion, classifiers := [none] },
        { name := "mclanguage", group := NEOFORGE_GROUP, artifact := MCLANGUAGE_ARTIFACT,
          version := artifactVersion, classifiers := [none] },
        { name := "lowcodelanguage", group := NEOFORGE_GROUP, artifact := LOWCODELANGUAGE_ARTIFACT,
          version := artifactVersion, classifiers := [none] }],
      wildcardsInUse := [] }
  else if U.isVersionAcceptable minecraftVersion [19, 20] then
    let mcpUnifiedVersion := minecraftVersion.toVersionString ++ "-" ++ WILDCARD_MCP_VERSION
    let base : List GeneratedFile := [
      { name := "universal jar", group := NEOFORGE_GROUP, artifact := NEOFORGE_ARTIFACT,
        version := artifactVersion, classifiers := [some "universal"], classpath := some false },
      { name := "client jar", group := NEOFORGE_GROUP, artifact := NEOFORGE_ARTIFACT,
        version := artifactVersion, classifiers := [some "client"], classpath := some false },
      { name := "client data", group := MINECRAFT_GROUP, artifact := MINECRAFT_CLIENT_ARTIFACT,
        version := minecraftVersion.toVersionString, classifiers := [some "data"],
        skipIfNotPresent := some true, classpath := some false },
      { name := "client srg", group := MINECRAFT_GROUP, artifact := MINECRAFT_CLIENT_ARTIFACT,
        version := mcpUnifiedVersion, classifiers := [some "srg"], classpath := some false }]
    let afterSeventeen :=
      if U.isVersionAcceptable minecraftVersion [17, 18, 19, 20] then
        [{ name := "fmlcore", group := NEOFORGE_GROUP, artifact := FMLCORE_ARTIFACT,
           version := artifactVersion, classifiers := [(none : Option String)] },
         { name := "javafmllanguage", group := NEOFORGE_GROUP, artifact := JAVAFMLLANGUAGE_ARTIFACT,
           version := artifactVersion, classifiers := [none] },
         { name := "mclanguage", group := NEOFORGE_GROUP, artifact := MCLANGUAGE_ARTIFACT,
           version := artifactVersion, classifiers := [none] }] ++ base
      else base
    let afterEighteen :=
      if U.isVersionAcceptable minecraftVersion [18, 19, 20] then
        { name := "lowcodelanguage", group := NEOFORGE_GROUP, artifact := LOWCODELANGUAGE_ARTIFACT,
          version := artifactVersion, classifiers := [(none : Option String)] } :: afterSeventeen
      else
        afterSeventeen ++ [
          { name := "client slim", group := MINECRAFT_GROUP, artifact := MINECRAFT_CLIENT_ARTIFACT,
            version := mcpUnifiedVersion, classifiers := [some "slim", some "slim-stable"],
            classpath := some false },
          { name := "client extra", group := MINECRAFT_GROUP, artifact := MINECRAFT_CLIENT_ARTIFACT,
            version := mcpUnifiedVersion, classifiers := [some "extra", some "extra-stable"],
            classpath := some false }]
    { generatedFiles := afterEighteen, wildcardsInUse := [WILDCARD_MCP_VERSION] }
  else
    { generatedFiles := [], wildcardsInUse := [] }

/-- `NeoForgeGradle3Adapter.getMCPVersion` (lines 562-569): scan the game
argument list for the `--fml.mcpVersion` flag and return its successor;
a trailing flag with no successor behaves as not found (JS `undefined ==
null`). -/
def NeoForgeGradle3Adapter.getMCPVersion : List String → Option String
  | [] => none
  | arg :: rest =>
    if arg = "--fml.mcpVersion" then rest.head?
    else NeoForgeGradle3Adapter.getMCPVersion rest

/-- Failure modes of the Gradle3 installer-mediated pipeline. -/
inductive ResolveError where
  | mcpVersionNotFound
  | requiredFileMissing (name : String) (targetLocations : List FsPath)
  | expectedLibraryMissing (name : String)
  | noGeneratedModule
deriving DecidableEq, Repr

/-- Wildcard resolution at the head of `processNeoForgeModule`
(lines 392-411): when the MCP wildcard is in use, look its value up in the
manifest's game arguments (`PlaceholderUnresolved` if absent) and
substitute it into every version template containing it. -/
def applyWildcards (wildcardsInUse : List String) (argumentsGame : List String)
    (generatedFiles : List GeneratedFile) : Except ResolveError (List GeneratedFile) :=
  if wildcardsInUse.contains WILDCARD_MCP_VERSION then
    match NeoForgeGradle3Adapter.getMCPVersion argumentsGame with
    | none => Except.error ResolveError.mcpVersionNotFound
    | some mcpVersion =>
      Except.ok (generatedFiles.map fun f =>
        if strIncludes f.version WILDCARD_MCP_VERSION then
          { f with version := strReplaceFirst f.version WILDCARD_MCP_VERSION mcpVersion }
        else f)
  else
    Except.ok generatedFiles

/-- The installer-output location probed for one classifier of an entry:
`join(libDir, mavenComponentsAsNormalizedPath(...))` (lines 423-426). -/
def entryClassifierPath (libDir : FsPath) (e : GeneratedFile) (c : Option String) : FsPath :=
  libDir ++ mavenComponentsAsNormalizedPath e.group e.artifact e.version c

/-- The Module pushed for a located classifier (lines 433-455). -/
def buildEntryModule (H : HashModel) (fs : FileSys) (baseUrl : String)
    (e : GeneratedFile) (c : Option String) (p : FsPath) : Module :=
  { id := mavenComponentsToIdentifier e.group e.artifact e.version c none
    name := "Minecraft NeoForge (" ++ e.name ++ ")"
    type := ModuleType.Library
    classpath := e.classpath.getD true
    artifact := generateArtifact H (fs.readFile p)
      (getArtifactUrlByComponents baseUrl e.group e.artifact e.version c)
    subModules := [] }

/-- The `classifierLoop` of `processNeoForgeModule` (lines 417-471): probe
each classifier in template order, record every probed location, and on the
first hit build the Module, copy the file to permanent storage and stop. -/
def resolveEntryGo (H : HashModel) (baseUrl : String) (libDir : FsPath)
    (e : GeneratedFile) (fs : FileSys) (tried : List FsPath) :
    List (Option String) → FileSys × List FsPath × Option Module
  | [] => (fs, tried, none)
  | c :: rest =>
    let targetLocalPath := entryClassifierPath libDir e c
    let tried' := tried ++ [targetLocalPath]
    if fs.pathExists targetLocalPath then
      (fs.write (getArtifactByComponentsPath e.group e.artifact e.version c)
         (fs.readFile targetLocalPath),
       tried',
       some (buildEntryModule H fs baseUrl e c targetLocalPath))
    else
      resolveEntryGo H baseUrl libDir e fs tried' rest

/-- The Expected-File Entry loop of `processNeoForgeModule`
(lines 415-477): one optional Module per entry; a missing entry with
`skipIfNotPresent` unset fails with the error naming every probed
location. -/
def processGeneratedFilesGo (H : HashModel) (baseUrl : String) (libDir : FsPath)
    (fs : FileSys) : List GeneratedFile → Except ResolveError (FileSys × List Module)
  | [] => Except.ok (fs, [])
  | e :: rest =>
    let step := resolveEntryGo H baseUrl libDir e fs [] e.classifiers
    match step.2.2 with
    | some m =>
      match processGeneratedFilesGo H baseUrl libDir step.1 rest with
      | Except.ok r => Except.ok (r.1, m :: r.2)
      | Except.error err => Except.error err
    | none =>
      if !(e.skipIfNotPresent.getD false) then
        Except.error (ResolveError.requiredFileMissing e.name step.2.1)
      else
        processGeneratedFilesGo H baseUrl libDir step.1 rest

/-! ## Version manifest and library reconciliation (Gradle3) -/

/-- The `downloads.artifact` record of a manifest library entry
(`VersionManifestFG3`; the model class is outside the excerpt, its fields
are read at the use sites).  JS truthiness of `artifact.url` is `≠ ""`. -/
structure FG3Artifact where
  path : FsPath
  url : String
  sha1 : String
deriving DecidableEq, Repr

/-- One library record of the FG3 version manifest. -/
structure FG3Library where
  name : String
  downloads : FG3Artifact
deriving DecidableEq, Repr

/-- The parsed FG3 version manifest: the `arguments.game` list (scanned for
the MCP version flag) and the library records.  JSON parsing itself is
outside the model; the parsed value is taken as input. -/
structure VersionManifestFG3 where
  argumentsGame : List String
  libraries : List FG3Library
deriving DecidableEq, Repr

/-- The components of a `group:artifact:version[:classifier]` identifier. -/
structure MavenComponents where
  group : String
  artifact : String
  version : String
  classifier : Option String
deriving DecidableEq, Repr

/-- Modelled from the spec: `MavenUtil.getMavenComponents` (class outside
the excerpt) splits an identifier on `:`. -/
def getMavenComponents (name : String) : MavenComponents :=
  match strSplitOnColon name with
  | [g, a, v] => ⟨g, a, v, none⟩
  | g :: a :: v :: c :: _ => ⟨g, a, v, some c⟩
  | _ => ⟨name, "", "", none⟩

/-- Modelled from the spec: normalized repository path of a coordinate with
an explicit extension. -/
def mavenComponentsAsNormalizedPathExt (group artifact version : String)
    (classifier : Option String) (extension : String) : FsPath :=
  [group, artifact, version,
   artifact ++ "-" ++ version
     ++ (match classifier with | some c => "-" ++ c | none => "") ++ "." ++ extension]

/-- Modelled from the spec (§6 `urlFor`): artifact URL with an explicit
extension. -/
def getArtifactUrlByComponentsExt (baseUrl group artifact version : String)
    (classifier : Option String) (extension : String) : String :=
  baseUrl ++ "/" ++ String.intercalate "/"
    (mavenComponentsAsNormalizedPathExt group artifact version classifier extension)

/-- Modelled from the spec (§6 `localPathFor`): `getArtifactById(name, ext)`
— the container-local path of an identifier, in the same permanent library
repository as `getArtifactByComponentsPath`. -/
def getArtifactByIdPath (name : String) (extension : String) : FsPath :=
  let c := getMavenComponents name
  "lib-repo" :: mavenComponentsAsNormalizedPathExt c.group c.artifact c.version c.classifier extension

/-- Modelled from the spec: the version repository's permanent location of
the version manifest (outside the excerpt; parameterized by the version
file name). -/
def getVersionManifestDest (versionName : String) : FsPath :=
  ["version-repo", versionName ++ ".json"]

/-- Modelled from the spec: the published URL of the version manifest. -/
def getVersionManifestURL (baseUrl versionName : String) : String :=
  baseUrl ++ "/versions/" ++ versionName

/-- `NeoForgeGradle3Adapter.processVersionManifest` (lines 360-386): read
the generated manifest file, wrap it as the version-manifest Module and
copy it to its permanent location.  The parsed manifest travels separately
(see `VersionManifestFG3`). -/
def processVersionManifest (H : HashModel) (fs : FileSys) (baseUrl : String)
    (installerOutputDir : FsPath) (versionName artifactVersion : String) :
    FileSys × Module :=
  let versionManifestPath := getVersionManifestPath installerOutputDir versionName
  let versionManifestBuf := fs.readFile versionManifestPath
  let versionManifestModule : Module :=
    { id := artifactVersion
      name := "Minecraft NeoForge (version.json)"
      type := ModuleType.VersionManifest
      artifact := generateArtifact H versionManifestBuf (getVersionManifestURL baseUrl versionName)
      subModules := [] }
  (fs.write (getVersionManifestDest versionName) versionManifestBuf, versionManifestModule)

/-- The Module pushed by `processLibraries` for one manifest library
(lines 505-521). -/
def buildLibraryModule (H : HashModel) (fs : FileSys) (baseUrl : String)
    (entry : FG3Library) (p : FsPath) : Module :=
  let components := getMavenComponents entry.name
  { id := entry.name
    name := "Minecraft NeoForge (" ++ components.artifact ++ ")"
    type := ModuleType.Library
    artifact := generateArtifact H (fs.readFile p)
      (getArtifactUrlByComponents baseUrl components.group components.artifact
        components.version components.classifier)
    subModules := [] }

/-- `NeoForgeGradle3Adapter.processLibraries` (lines 486-537): for every
manifest library whose download descriptor has a (truthy) URL, the file
must already exist in the installer's library directory; its Module is
built from the on-disk bytes and the file is copied to permanent storage. -/
def processLibrariesGo (H : HashModel) (baseUrl : String) (libDir : FsPath)
    (fs : FileSys) : List FG3Library → Except ResolveError (FileSys × List Module)
  | [] => Except.ok (fs, [])
  | entry :: rest =>
    let artifact := entry.downloads
    if artifact.url ≠ "" then
      let targetLocalPath := libDir ++ artifact.path
      if !(fs.pathExists targetLocalPath) then
        Except.error (ResolveError.expectedLibraryMissing entry.name)
      else
        let m := buildLibraryModule H fs baseUrl entry targetLocalPath
        let components := getMavenComponents entry.name
        let fs' := fs.write
          (getArtifactByComponentsPath components.group components.artifact
            components.version components.classifier)
          (fs.readFile targetLocalPath)
        match processLibrariesGo H baseUrl libDir fs' rest with
        | Except.ok r => Except.ok (r.1, m :: r.2)
        | Except.error err => Except.error err
    else
      processLibrariesGo H baseUrl libDir fs rest

/-- The tree-assembly portion of `processWithInstaller` (lines 318-341)
after `verifyInstallerRan` has succeeded, together with
`processNeoForgeModule`'s wildcard resolution and root shaping
(lines 388-484): process the version manifest, reconcile the generated
files, make the first resolved Module the root re-tagged as
`NeoForgeHosted` with the remaining resolved Modules as its children,
prepend (`unshift`) the version-manifest Module, then append the manifest
library Modules.  `mdls.shift()` on an empty list (every entry skipped
and absent) would crash in JS and is modelled as `noGeneratedModule`.
The optional discard-output removal (lines 335-339) follows the returned
tree and is not modelled. -/
def assembleInstallerTree (H : HashModel) (cfg : ConfigureResult)
    (manifest : VersionManifestFG3) (fs : FileSys) (baseUrl : String)
    (installerOutputDir : FsPath) (versionName artifactVersion : String) :
    Except ResolveError (FileSys × Module) :=
  let vmt := processVersionManifest H fs baseUrl installerOutputDir versionName artifactVersion
  match applyWildcards cfg.wildcardsInUse manifest.argumentsGame cfg.generatedFiles with
  | Except.error e => Except.error e
  | Except.ok genFiles =>
    match processGeneratedFilesGo H baseUrl (installerOutputDir ++ ["libraries"]) vmt.1 genFiles with
    | Except.error e => Except.error e
    | Except.ok (fs2, mdls) =>
      match mdls with
      | [] => Except.error ResolveError.noGeneratedModule
      | root :: rest =>
        match processLibrariesGo H baseUrl (installerOutputDir ++ ["libraries"]) fs2
            manifest.libraries with
        | Except.error e => Except.error e
        | Except.ok (fs3, libs) =>
          Except.ok (fs3,
            { root with type := ModuleType.NeoForgeHosted,
                        subModules := vmt.2 :: rest ++ libs })

/-! ## Direct-extraction path of Gradle3 (`processWithoutInstaller`) -/

/-- Modelled from the spec (§6 `localPathFor`): `getLocalNeoForge(version,
classifier)` — the local path of the loader's own artifact. -/
def getLocalNeoForgePath (artifactVersion classifier : String) : FsPath :=
  "lib-repo" :: mavenComponentsAsNormalizedPath NEOFORGE_GROUP NEOFORGE_ARTIFACT
    artifactVersion (some classifier)

/-- The self-record lookup of `processWithoutInstaller` (line 596): the
manifest record whose name starts with `net.neoforge.maven:neoforge:`,
used for the authoritative hash of the main artifact. -/
def findNeoForgeMdl (libraries : List FG3Library) : Option FG3Library :=
  libraries.find? fun val => strStartsWith val.name "net.neoforge.maven:neoforge:"

/-- Outcome of a verify-or-refresh step: the disk afterwards, how many
downloads ran, and the buffer the caller continues with. -/
structure FetchResult where
  fs : FileSys
  downloads : Nat
  buffer : Bytes

/-- Lines 602-627 of `processWithoutInstaller`: if a local universal jar
exists, compare its SHA-1 to the manifest-declared hash and reuse on
match; on mismatch or absence download (the remote repository serves
`remote` for the universal coordinate, written to the local path), then
re-read the local path. -/
def resolveUniversalJar (H : HashModel) (fs : FileSys) (universalLocalPath : FsPath)
    (declaredSha1 : String) (remote : Bytes) : FetchResult :=
  let bufOpt : Option Bytes :=
    if fs.pathExists universalLocalPath then
      let localUniBuf := fs.readFile universalLocalPath
      if H.sha1 localUniBuf != declaredSha1 then none else some localUniBuf
    else none
  match bufOpt with
  | some b => ⟨fs, 0, b⟩
  | none =>
    let fs2 := fs.write universalLocalPath remote
    ⟨fs2, 1, fs2.readFile universalLocalPath⟩

/-- Outcome of one library step: the disk afterwards, the number of
downloads, and the emitted Module. -/
structure LibStepResult where
  fs : FileSys
  downloads : Nat
  module : Module

/-- One iteration of the `processWithoutInstaller` library loop
(lines 669-719), after the skip test: extension is fixed to `jar`;
existing local bytes are reused only when their SHA-1 matches the
record's declared hash, otherwise the artifact is downloaded (the remote
serves `remote`, written to the record's local path per §6
`downloadDirect`) and re-read; the Module is built from the buffer in
hand. -/
def fg3LibraryStep (H : HashModel) (baseUrl : String) (fs : FileSys)
    (lib : FG3Library) (remote : Bytes) : LibStepResult :=
  let extension := "jar"
  let localPath := getArtifactByIdPath lib.name extension
  let step1 : Bool × Bytes :=
    if !(fs.pathExists localPath) then (true, [])
    else
      let libBuf := fs.readFile localPath
      if H.sha1 libBuf != lib.downloads.sha1 then (true, libBuf) else (false, libBuf)
  let fsAfter := if step1.1 then fs.write localPath remote else fs
  let libBuf := if step1.1 then fsAfter.readFile localPath else step1.2
  let mavenComponents := getMavenComponents lib.name
  let properId := mavenComponentsToIdentifier mavenComponents.group mavenComponents.artifact
    mavenComponents.version mavenComponents.classifier (some extension)
  { fs := fsAfter
    downloads := if step1.1 then 1 else 0
    module :=
      { id := properId
        name := "Minecraft NeoForge (" ++ mavenComponents.artifact ++ ")"
        type := ModuleType.Library
        artifact := generateArtifact H libBuf
          (getArtifactUrlByComponentsExt baseUrl mavenComponents.group mavenComponents.artifact
            mavenComponents.version mavenComponents.classifier extension)
        subModules := [] } }

/-- The `processWithoutInstaller` library loop (lines 665-720): skip any
record whose name starts with `net.neoforge.maven:neo:`, process every
other record and push its Module. `remoteOf` gives the bytes the remote
serves for each record. -/
def processWithoutInstallerLibsGo (H : HashModel) (baseUrl : String)
    (remoteOf : FG3Library → Bytes) (fs : FileSys) :
    List FG3Library → FileSys × List Module
  | [] => (fs, [])
  | lib :: rest =>
    if strStartsWith lib.name "net.neoforge.maven:neo:" then
      processWithoutInstallerLibsGo H baseUrl remoteOf fs rest
    else
      let step := fg3LibraryStep H baseUrl fs lib (remoteOf lib)
      let r := processWithoutInstallerLibsGo H baseUrl remoteOf step.fs rest
      (r.1, step.module :: r.2)

/-! ## Gradle2 adapter (legacy direct-extraction path) -/

/-- One library record of the FG2 version manifest
(`VersionManifestFG2`; the model class is outside the excerpt): name,
optional source URL, optional checksum list. -/
structure FG2Lib where
  name : String
  url : Option String
  checksums : Option (List String)
deriving DecidableEq, Repr

/-- `possibleExt` of `determineExtension` (src/unnamed/part_002
lines 184-187). -/
def possibleExt : List String := ["jar.pack.xz", "jar"]

/-- `NeoForgeGradle2Adapter.determineExtension` (lines 179-205): with no
url the extension is `jar`; otherwise probe the local repository for the
compressed then the plain extension, then probe the remote in the same
order, defaulting to `jar`.  `remoteHas` models the external
`headArtifactById` probe. -/
def determineExtension (fs : FileSys) (remoteHas : String → String → Bool)
    (lib : FG2Lib) : String :=
  match lib.url with
  | none => "jar"
  | some _ =>
    match possibleExt.find? (fun ext => fs.pathExists (getArtifactByIdPath lib.name ext)) with
    | some ext => ext
    | none =>
      match possibleExt.find? (fun ext => remoteHas lib.name ext) with
      | some ext => ext
      | none => "jar"

/-- The download decision of the Gradle2 library loop (lines 105-125):
download when the file is absent; when present, verify the SHA-1 against
the manifest checksum only if the file is not a `.pack.xz` one and the
record declares exactly one checksum, and download on mismatch. -/
def g2QueueDownload (H : HashModel) (fs : FileSys) (lib : FG2Lib)
    (localPath : FsPath) (postProcess : Bool) : Bool :=
  if fs.pathExists localPath then
    let libBuf := fs.readFile localPath
    if !postProcess then
      match lib.checksums with
      | some cs =>
        if cs.length == 1 then H.sha1 libBuf != cs.getD 0 "" else false
      | none => false
    else
      false
  else
    true

/-- Outcome of one Gradle2 library iteration. -/
structure G2StepResult where
  fs : FileSys
  downloads : Nat
  module : Module
  postProcess : Bool
  localPath : FsPath

/-- One iteration of the Gradle2 library loop (lines 100-163), after the
skip test: determine the extension, decide the download per
`g2QueueDownload`, download (the remote serves `remote`, written at the
local path) when decided, and build the Module from the buffer in hand. -/
def g2LibraryStep (H : HashModel) (baseUrl : String) (fs : FileSys)
    (remoteHas : String → String → Bool) (lib : FG2Lib) (remote : Bytes) : G2StepResult :=
  let extension := determineExtension fs remoteHas lib
  let localPath := getArtifactByIdPath lib.name extension
  let postProcess := extension == "jar.pack.xz"
  let queueDownload := g2QueueDownload H fs lib localPath postProcess
  let fsAfter := if queueDownload then fs.write localPath remote else fs
  let libBuf := fsAfter.readFile localPath
  let mavenComponents := getMavenComponents lib.name
  let properId := mavenComponentsToIdentifier mavenComponents.group mavenComponents.artifact
    mavenComponents.version mavenComponents.classifier (some extension)
  { fs := fsAfter
    downloads := if queueDownload then 1 else 0
    module :=
      { id := properId
        name := "Minecraft NeoForge (" ++ mavenComponents.artifact ++ ")"
        type := ModuleType.Library
        artifact := generateArtifact H libBuf
          (getArtifactUrlByComponentsExt baseUrl mavenComponents.group mavenComponents.artifact
            mavenComponents.version mavenComponents.classifier extension)
        subModules := [] }
    postProcess := postProcess
    localPath := localPath }

/-- One entry of the Gradle2 post-process queue (lines 158-163). -/
structure PPEntry where
  id : String
  localPath : FsPath
deriving DecidableEq, Repr

/-- The Gradle2 library loop (lines 96-165): skip records whose name starts
with `net.neoforge:neoforge:`; every processed `.pack.xz` record is queued
for batch decompression under its Module id. -/
def g2LibraryLoop (H : HashModel) (baseUrl : String)
    (remoteHas : String → String → Bool) (remoteOf : FG2Lib → Bytes) (fs : FileSys) :
    List FG2Lib → FileSys × List Module × List PPEntry
  | [] => (fs, [], [])
  | lib :: rest =>
    if strStartsWith lib.name "net.neoforge:neoforge:" then
      g2LibraryLoop H baseUrl remoteHas remoteOf fs rest
    else
      let step := g2LibraryStep H baseUrl fs remoteHas lib (remoteOf lib)
      let r := g2LibraryLoop H baseUrl remoteHas remoteOf step.fs rest
      (r.1, step.module :: r.2.1,
       (if step.postProcess then [⟨step.module.id, step.localPath⟩] else []) ++ r.2.2)

/-! ## Batch `.pack.xz` decompression post-process (Gradle2) -/

/-- JS `basename` on a component path: the last component. -/
def fsBasename (p : FsPath) : String := p.getLastD ""

/-- The copy loop of `processPackXZFiles` (lines 225-230): copy every
queued file into the scratch directory under its base name, collecting the
scratch file list in order. -/
def copyQueueToTemp (fs : FileSys) (tempDir : FsPath) :
    List PPEntry → FileSys × List FsPath
  | [] => (fs, [])
  | entry :: rest =>
    let tmpFile := tempDir ++ [fsBasename entry.localPath]
    let fs' := fs.write tmpFile (fs.readFile entry.localPath)
    let r := copyQueueToTemp fs' tempDir rest
    (r.1, tmpFile :: r.2)

/-- Modelled from the spec (§6 external batch-unpack tool;
`PackXZExtractWrapper` is outside the excerpt): given a list of file
paths, the tool produces alongside each input a sibling file with the
compressed suffix stripped, whose bytes are `unpackFn` of the input's
bytes.  The spec gives the tool no failure mode, so it is modelled as
total. -/
def extractUnpack (unpackFn : Bytes → Bytes) (fs : FileSys) : List FsPath → FileSys
  | [] => fs
  | f :: rest =>
    let dest := f.dropLast ++ [stripPackXZ (fsBasename f)]
    extractUnpack unpackFn (fs.write dest (unpackFn (fs.readFile f))) rest

/-- Observable outcome of `processPackXZFiles`: the disk afterwards, the
`(id, MD5)` accumulator, and the argument list of every external-tool
invocation. -/
structure PackXZResult where
  fs : FileSys
  accumulator : List (String × String)
  invocations : List (List FsPath)

/-- `NeoForgeGradle2Adapter.processPackXZFiles` (lines 207-252): an empty
queue does nothing; otherwise the scratch directory is recreated (remove
if present, then mkdirs — the removal is unconditional in the model since
removing an absent tree is a no-op), every queued file is copied in, the
external unpack tool is invoked once over the whole batch, the MD5 of each
entry's decompressed scratch file is accumulated under the entry's Module
id, and the scratch directory is removed. -/
def processPackXZFiles (H : HashModel) (unpackFn : Bytes → Bytes) (fs : FileSys)
    (tempDir : FsPath) (processingQueue : List PPEntry) : PackXZResult :=
  if processingQueue.length == 0 then
    ⟨fs, [], []⟩
  else
    let fs1 := fs.removeDir tempDir
    let copied := copyQueueToTemp fs1 tempDir processingQueue
    let files := copied.2
    let fs2 := extractUnpack unpackFn copied.1 files
    let accumulator := processingQueue.map fun entry =>
      let tmpFileName := fsBasename entry.localPath
      let tmpFile := tempDir ++ [stripPackXZ tmpFileName]
      (entry.id, H.md5 (fs2.readFile tmpFile))
    let fs3 := fs2.removeDir tempDir
    ⟨fs3, accumulator, [files]⟩

/-- The caller-side patch loop over one accumulator entry (lines 167-174):
find the first Module with the entry's id and overwrite its descriptor's
MD5 with the entry's decompressed-content hash. -/
def patchFirstMD5 (mdls : List Module) (entryId md5v : String) : List Module :=
  match mdls with
  | [] => []
  | m :: rest =>
    if m.id = entryId then
      { m with artifact := { m.artifact with MD5 := md5v } } :: rest
    else
      m :: patchFirstMD5 rest entryId md5v

/-- The caller-side patch loop over the whole accumulator (lines 167-174). -/
def applyPostProcess (mdls : List Module) (accumulator : List (String × String)) : List Module :=
  accumulator.foldl (fun ms entry => patchFirstMD5 ms entry.1 entry.2) mdls

/-! ## Concrete evaluation fixtures -/

/-- The loader's own record of the evaluation manifest. -/
def selfRecord : FG3Library :=
  { name := "net.neoforge.maven:neoforge:21.1.90"
    downloads := { path := ["net", "neoforge-21.1.90.jar"]
                   url := "https://maven.neoforge.net/self.jar"
                   sha1 := "abc" } }

/-- A record that is not the loader's own but shares the truncated `neo:`
name prefix the loop tests. -/
def neoRecord : FG3Library :=
  { name := "net.neoforge.maven:neo:1.0"
    downloads := { path := ["net", "neo-1.0.jar"]
                   url := "https://maven.neoforge.net/neo.jar"
                   sha1 := "def" } }

/-- An ordinary third-party record of the evaluation manifest. -/
def asmRecord : FG3Library :=
  { name := "org.ow2.asm:asm:9.3"
    downloads := { path := ["org", "asm-9.3.jar"]
                   url := "https://repo/asm.jar"
                   sha1 := "ghi" } }

/-- A disk with no files. -/
def emptyFs : FileSys := ⟨fun _ => none⟩

/-- A concrete hash model for evaluations. -/
def evalHash : HashModel := ⟨fun b => "sha-" ++ toString b.length, fun b => "md5-" ++ toString b.length⟩

/-- A `VersionUtil` model for concrete evaluations: major 1 plus minor
membership (the spec's §3 range-membership query). -/
def evalVU : VersionUtilModel :=
  { isOneDotTwelveFG2 := fun _ => false
    isVersionAcceptable := fun v l => v.major == 1 && l.contains v.minor
    versionGte := fun _ _ => true }

/-- A disk given by an association list. -/
def fsOfList (l : List (FsPath × Bytes)) : FileSys :=
  ⟨fun p => (l.find? fun e => e.1 == p).map Prod.snd⟩

/-- The configured Expected-File table for game version 1.19.0 and loader
artifact version 41.0.0 (the 1.18+ branch of `configure`, whose first
entry is `lowcodelanguage`). -/
def c4cfg : ConfigureResult := NeoForgeGradle3Adapter.configure evalVU ⟨1, 19, 0⟩ "41.0.0"

/-- The parsed manifest of the 1.19 evaluation: the MCP version flag plus
one third-party library. -/
def c4manifest : VersionManifestFG3 :=
  { argumentsGame := ["--fml.mcpVersion", "20220101.100000"]
    libraries := [asmRecord] }

/-- The disk of the 1.19 evaluation: the generated manifest file, every
generated file except `client data` (which is skippable), and the manifest
library. -/
def c4fs : FileSys := fsOfList [
  (["cache", "versions", "neoforge-1.19", "neoforge-1.19.json"], [1]),
  (["cache", "libraries", "net.neoforged", "lowcodelanguage", "41.0.0",
    "lowcodelanguage-41.0.0.jar"], [2]),
  (["cache", "libraries", "net.neoforged", "fmlcore", "41.0.0", "fmlcore-41.0.0.jar"], [3]),
  (["cache", "libraries", "net.neoforged", "javafmllanguage", "41.0.0",
    "javafmllanguage-41.0.0.jar"], [4]),
  (["cache", "libraries", "net.neoforged", "mclanguage", "41.0.0", "mclanguage-41.0.0.jar"], [5]),
  (["cache", "libraries", "net.neoforged", "neoforge", "41.0.0",
    "neoforge-41.0.0-universal.jar"], [6]),
  (["cache", "libraries", "net.neoforged", "neoforge", "41.0.0",
    "neoforge-41.0.0-client.jar"], [7]),
  (["cache", "libraries", "net.minecraft", "client", "1.19.0-20220101.100000",
    "client-1.19.0-20220101.100000-srg.jar"], [8]),
  (["cache", "libraries", "org", "asm-9.3.jar"], [9])]

/-- A placeholder Module for total projections. -/
def dummyModule : Module :=
  { id := "", name := "", type := ModuleType.Library, artifact := ⟨0, "", ""⟩,
    subModules := [] }

/-- The wildcard-resolved table of the 1.19 evaluation. -/
def c4genFiles : List GeneratedFile :=
  (applyWildcards c4cfg.wildcardsInUse c4manifest.argumentsGame
    c4cfg.generatedFiles).toOption.getD []

/-- The generated-file reconciliation outcome of the 1.19 evaluation. -/
def c4gfResult : FileSys × List Module :=
  (processGeneratedFilesGo evalHash "https://base" (["cache"] ++ ["libraries"])
    (processVersionManifest evalHash c4fs "https://base" ["cache"] "neoforge-1.19" "41.0.0").1
    c4genFiles).toOption.getD (emptyFs, [])

/-- The first resolved generated-file Module of the 1.19 evaluation. -/
def c4root : Module := c4gfResult.2.headD dummyModule

/-- The remaining resolved generated-file Modules of the 1.19 evaluation. -/
def c4rest : List Module := c4gfResult.2.tail

/-- The manifest-library reconciliation outcome of the 1.19 evaluation. -/
def c4libResult : FileSys × List Module :=
  (processLibrariesGo evalHash "https://base" (["cache"] ++ ["libraries"]) c4gfResult.1
    c4manifest.libraries).toOption.getD (emptyFs, [])

/-- A concrete decompressor for evaluations: prepends one byte. -/
def evalUnpack : Bytes → Bytes := fun b => 0 :: b

/-- First queued entry of the batch-decompression evaluation. -/
def c7e : PPEntry := ⟨"g:a:1@jar.pack.xz", ["lib-repo", "g", "a", "1", "a-1.jar.pack.xz"]⟩

/-- Second queued entry of the batch-decompression evaluation. -/
def c7e2 : PPEntry := ⟨"g:b:2@jar.pack.xz", ["lib-repo", "g", "b", "2", "b-2.jar.pack.xz"]⟩

/-- The disk of the batch-decompression evaluation: the two compressed
library files. -/
def c7fs : FileSys := fsOfList [
  (["lib-repo", "g", "a", "1", "a-1.jar.pack.xz"], [1, 2]),
  (["lib-repo", "g", "b", "2", "b-2.jar.pack.xz"], [3, 4])]

end TR18SNebula

namespace TR18SNebula

/-! ## Theorems -/

/-- C1: `getNeoForgeResolver` evaluates the fixed two-entry table
`NEOFORGE_ADAPTER_IMPL` in order and returns the adapter of the first entry
whose version predicate accepts the (game version, loader version) pair:
Gradle2 if its predicate accepts, else Gradle3 if its predicate accepts,
and otherwise it fails with the no-resolver-found error.  Being a pure
function of the pair, selection is deterministic. -/
theorem getNeoForgeResolver_first_match (U : VersionUtilModel)
    (v : MinecraftVersion) (lv : String) :
    VersionSegmentedRegistry.getNeoForgeResolver U v lv =
      (if NeoForgeGradle2Adapter.isForVersion U v lv then
        Except.ok AdapterKind.gradle2
      else if NeoForgeGradle3Adapter.isForVersion U v lv then
        Except.ok AdapterKind.gradle3
      else
        Except.error "No forge resolver found for Minecraft version!") := by
  simp only [VersionSegmentedRegistry.getNeoForgeResolver,
    VersionSegmentedRegistry.NEOFORGE_ADAPTER_IMPL,
    VersionSegmentedRegistry.selectFrom]

/-- C10: on any game version with minor 12, the Gradle2 predicate accepts
only loader versions classified by `isOneDotTwelveFG2` as the old 1.12
build-tooling generation, the Gradle3 predicate accepts only loader
versions not so classified, the two predicates never both accept, and
registry selection is therefore independent of the table order.  Stated
for every model of the external classifier `VersionUtil`. -/
theorem minor12_predicates_mutually_exclusive (U : VersionUtilModel)
    (maj patch : Nat) (lv : String) :
    ((NeoForgeGradle2Adapter.isForVersion U ⟨maj, 12, patch⟩ lv &&
      !(U.isOneDotTwelveFG2 lv)) = false) ∧
    ((NeoForgeGradle3Adapter.isForVersion U ⟨maj, 12, patch⟩ lv &&
      U.isOneDotTwelveFG2 lv) = false) ∧
    ((NeoForgeGradle2Adapter.isForVersion U ⟨maj, 12, patch⟩ lv &&
      NeoForgeGradle3Adapter.isForVersion U ⟨maj, 12, patch⟩ lv) = false) ∧
    (VersionSegmentedRegistry.selectFrom
        [(AdapterKind.gradle2, NeoForgeGradle2Adapter.isForVersion U),
         (AdapterKind.gradle3, NeoForgeGradle3Adapter.isForVersion U)]
        ⟨maj, 12, patch⟩ lv =
      VersionSegmentedRegistry.selectFrom
        [(AdapterKind.gradle3, NeoForgeGradle3Adapter.isForVersion U),
         (AdapterKind.gradle2, NeoForgeGradle2Adapter.isForVersion U)]
        ⟨maj, 12, patch⟩ lv) := by
  cases h12 : U.isOneDotTwelveFG2 lv <;>
    simp [NeoForgeGradle2Adapter.isForVersion, NeoForgeGradle3Adapter.isForVersion,
      VersionSegmentedRegistry.selectFrom, h12]

/-- A list is a prefix of itself followed by anything (helper for directory
removal: every path below a directory is below it). -/
theorem isPrefixOf_append_self (l t : List String) : List.isPrefixOf l (l ++ t) = true := by
  induction l with
  | nil => simp [List.isPrefixOf]
  | cons a as ih => simp [List.isPrefixOf, ih]

/-- C5: `verifyInstallerRan` leaves the disk untouched and succeeds when the
deterministic generated-manifest path exists; when it is missing, it removes
the installer output directory and only then raises the error, so that no
path below the installer output directory survives the failure. -/
theorem verifyInstallerRan_spec (fs : FileSys) (dir : FsPath) (versionName : String) :
    (verifyInstallerRan fs dir versionName =
      if fs.pathExists (getVersionManifestPath dir versionName) then
        (fs, Except.ok ())
      else
        (fs.removeDir dir,
         Except.error "NeoForge was either not installed or installed to the wrong location.")) ∧
    (∀ rest : FsPath,
      ((verifyInstallerRan fs dir versionName).1).files (dir ++ rest) =
        if fs.pathExists (getVersionManifestPath dir versionName) then
          fs.files (dir ++ rest)
        else
          none) := by
  constructor
  · by_cases h : fs.pathExists (getVersionManifestPath dir versionName) <;>
      simp [verifyInstallerRan, h]
  · intro rest
    by_cases h : fs.pathExists (getVersionManifestPath dir versionName) <;>
      simp [verifyInstallerRan, FileSys.removeDir, h, isPrefixOf_append_self]

/-- When no classifier of an entry exists on disk, the classifier loop scans
to the end, records every probed location, writes nothing and locates
nothing. -/
theorem resolveEntryGo_of_find_none (H : HashModel) (baseUrl : String) (libDir : FsPath)
    (e : GeneratedFile) (fs : FileSys) (tried : List FsPath) (cs : List (Option String))
    (h : cs.find? (fun c => fs.pathExists (entryClassifierPath libDir e c)) = none) :
    resolveEntryGo H baseUrl libDir e fs tried cs =
      (fs, tried ++ cs.map (entryClassifierPath libDir e), none) := by
  induction cs generalizing tried with
  | nil => simp [resolveEntryGo]
  | cons c rest ih =>
    rw [List.find?_cons] at h
    by_cases hex : fs.pathExists (entryClassifierPath libDir e c)
    · simp [hex] at h
    · simp only [hex] at h
      simp [resolveEntryGo, hex, ih _ h]

/-- When some classifier of an entry exists, the classifier loop stops at the
first such classifier: it copies that file to permanent storage and emits
exactly the Module built from it. -/
theorem resolveEntryGo_of_find_some (H : HashModel) (baseUrl : String) (libDir : FsPath)
    (e : GeneratedFile) (fs : FileSys) (tried : List FsPath) (cs : List (Option String))
    (c : Option String)
    (h : cs.find? (fun c => fs.pathExists (entryClassifierPath libDir e c)) = some c) :
    (resolveEntryGo H baseUrl libDir e fs tried cs).1 =
      fs.write (getArtifactByComponentsPath e.group e.artifact e.version c)
        (fs.readFile (entryClassifierPath libDir e c)) ∧
    (resolveEntryGo H baseUrl libDir e fs tried cs).2.2 =
      some (buildEntryModule H fs baseUrl e c (entryClassifierPath libDir e c)) := by
  induction cs generalizing tried with
  | nil => simp at h
  | cons c' rest ih =>
    rw [List.find?_cons] at h
    by_cases hex : fs.pathExists (entryClassifierPath libDir e c')
    · simp only [hex] at h
      cases h
      simp [resolveEntryGo, hex]
    · simp only [hex] at h
      simpa [resolveEntryGo, hex] using ih _ h

/-- C2: reconciliation of one Expected-File Entry against the disk.  The
entry's classifiers are probed in template order; the first classifier
whose installer-output path exists contributes exactly one Module (built
from that path, which is also copied to permanent storage) and no further
classifier is probed.  When no classifier's path exists, the entry is
silently omitted if `skipIfNotPresent` is set, and otherwise the run fails
with the required-file error naming every probed location — one per
classifier of the entry. -/
theorem processGeneratedFiles_entry_first_match (H : HashModel) (baseUrl : String)
    (libDir : FsPath) (fs : FileSys) (e : GeneratedFile) (rest : List GeneratedFile) :
    processGeneratedFilesGo H baseUrl libDir fs (e :: rest) =
      match e.classifiers.find? (fun c => fs.pathExists (entryClassifierPath libDir e c)) with
      | some c =>
        (match processGeneratedFilesGo H baseUrl libDir
            (fs.write (getArtifactByComponentsPath e.group e.artifact e.version c)
              (fs.readFile (entryClassifierPath libDir e c))) rest with
        | Except.ok r =>
          Except.ok (r.1, buildEntryModule H fs baseUrl e c (entryClassifierPath libDir e c) :: r.2)
        | Except.error err => Except.error err)
      | none =>
        if e.skipIfNotPresent.getD false then
          processGeneratedFilesGo H baseUrl libDir fs rest
        else
          Except.error (ResolveError.requiredFileMissing e.name
            (e.classifiers.map (entryClassifierPath libDir e))) := by
  cases hf : e.classifiers.find? (fun c => fs.pathExists (entryClassifierPath libDir e c)) with
  | none =>
    have hgo := resolveEntryGo_of_find_none H baseUrl libDir e fs [] e.classifiers hf
    by_cases hskip : e.skipIfNotPresent.getD false <;>
      simp [processGeneratedFilesGo, hgo, hskip]
  | some c =>
    have hgo := resolveEntryGo_of_find_some H baseUrl libDir e fs [] e.classifiers c hf
    simp only [processGeneratedFilesGo, hgo.1, hgo.2]

/-- Reading back a just-written path yields the written bytes. -/
theorem FileSys.readFile_write_self (fs : FileSys) (p : FsPath) (b : Bytes) :
    (fs.write p b).readFile p = b := by
  simp [FileSys.write, FileSys.readFile]

/-- C3: the uniform verify-or-refresh rule, for the three hash-carrying
reconciliations.  (1) The universal jar of `processWithoutInstaller`:
with a local copy whose SHA-1 equals the manifest-declared hash, the local
bytes are reused and no download runs; when the copy is absent or its hash
mismatches, exactly one download runs and the continuation buffer is the
freshly fetched remote bytes.  (2) One `processWithoutInstaller` library
step: same rule, and the emitted Module's descriptor is generated from the
local bytes on match and from the freshly fetched bytes otherwise — hence
its hash is the hash of the fresh content, never of the stale bytes.
(3) The Gradle2 loop for a hash-carrying record (no URL, so plain `jar`
extension, and exactly one declared checksum): same rule. -/
theorem integrity_verification_uniform (H : HashModel) (baseUrl : String) (fs : FileSys)
    (universalLocalPath : FsPath) (declaredSha1 : String) (remote : Bytes)
    (lib : FG3Library) (libRemote : Bytes)
    (remoteHas : String → String → Bool) (g2name c : String) (g2Remote : Bytes) :
    (resolveUniversalJar H fs universalLocalPath declaredSha1 remote =
      match fs.files universalLocalPath with
      | some localBuf =>
        if H.sha1 localBuf = declaredSha1 then ⟨fs, 0, localBuf⟩
        else ⟨fs.write universalLocalPath remote, 1, remote⟩
      | none => ⟨fs.write universalLocalPath remote, 1, remote⟩) ∧
    ((fg3LibraryStep H baseUrl fs lib libRemote).downloads,
      (fg3LibraryStep H baseUrl fs lib libRemote).module.artifact,
      (fg3LibraryStep H baseUrl fs lib libRemote).fs) =
      (let p := getArtifactByIdPath lib.name "jar"
       let comps := getMavenComponents lib.name
       let url := getArtifactUrlByComponentsExt baseUrl comps.group comps.artifact
         comps.version comps.classifier "jar"
       match fs.files p with
       | some localBuf =>
         if H.sha1 localBuf = lib.downloads.sha1 then (0, generateArtifact H localBuf url, fs)
         else (1, generateArtifact H libRemote url, fs.write p libRemote)
       | none => (1, generateArtifact H libRemote url, fs.write p libRemote)) ∧
    ((g2LibraryStep H baseUrl fs remoteHas ⟨g2name, none, some [c]⟩ g2Remote).downloads,
      (g2LibraryStep H baseUrl fs remoteHas ⟨g2name, none, some [c]⟩ g2Remote).module.artifact,
      (g2LibraryStep H baseUrl fs remoteHas ⟨g2name, none, some [c]⟩ g2Remote).fs) =
      (let p := getArtifactByIdPath g2name "jar"
       let comps := getMavenComponents g2name
       let url := getArtifactUrlByComponentsExt baseUrl comps.group comps.artifact
         comps.version comps.classifier "jar"
       match fs.files p with
       | some localBuf =>
         if H.sha1 localBuf = c then (0, generateArtifact H localBuf url, fs)
         else (1, generateArtifact H g2Remote url, fs.write p g2Remote)
       | none => (1, generateArtifact H g2Remote url, fs.write p g2Remote)) := by
  refine ⟨?_, ?_, ?_⟩
  · cases hf : fs.files universalLocalPath with
    | none =>
      simp [resolveUniversalJar, FileSys.pathExists, hf, FileSys.readFile_write_self]
    | some localBuf =>
      by_cases hsha : H.sha1 localBuf = declaredSha1 <;>
        simp [resolveUniversalJar, FileSys.pathExists, FileSys.readFile, hf, hsha,
          FileSys.write]
  · cases hf : fs.files (getArtifactByIdPath lib.name "jar") with
    | none =>
      simp [fg3LibraryStep, FileSys.pathExists, hf, FileSys.readFile_write_self,
        generateArtifact]
    | some localBuf =>
      by_cases hsha : H.sha1 localBuf = lib.downloads.sha1 <;>
        simp [fg3LibraryStep, FileSys.pathExists, FileSys.readFile, hf, hsha,
          FileSys.write, generateArtifact]
  · cases hf : fs.files (getArtifactByIdPath g2name "jar") with
    | none =>
      simp [g2LibraryStep, determineExtension, g2QueueDownload, FileSys.pathExists, hf,
        FileSys.readFile_write_self, generateArtifact]
    | some localBuf =>
      by_cases hsha : H.sha1 localBuf = c <;>
        simp [g2LibraryStep, determineExtension, g2QueueDownload, FileSys.pathExists,
          FileSys.readFile, hf, hsha, FileSys.write, generateArtifact]

/-- C6: in the Gradle2 library loop the download decision for a library in
the compressed (`.pack.xz`) case never consults the declared checksums —
for every checksums value it is the pure existence test — while in the
plain case the hash comparison participates exactly when the record
declares exactly one checksum, the decision then being
absence-or-mismatch. -/
theorem g2_hash_verification_policy (H : HashModel) (fs : FileSys) (lib : FG2Lib)
    (localPath : FsPath) :
    (∀ alt : Option (List String),
      g2QueueDownload H fs { lib with checksums := alt } localPath true =
        !(fs.pathExists localPath)) ∧
    (g2QueueDownload H fs lib localPath false =
      (!(fs.pathExists localPath) ||
        match lib.checksums with
        | some cs => cs.length == 1 && H.sha1 (fs.readFile localPath) != cs.getD 0 ""
        | none => false)) := by
  constructor
  · intro alt
    by_cases h : fs.pathExists localPath <;> simp [g2QueueDownload, h]
  · by_cases h : fs.pathExists localPath
    · cases hcs : lib.checksums with
      | none => simp [g2QueueDownload, h, hcs]
      | some cs =>
        by_cases hlen : (cs.length == 1) = true <;>
          simp [g2QueueDownload, h, hcs, hlen]
    · simp [g2QueueDownload, h]

/-- C9: evaluating `processWithoutInstaller`'s self-record lookup and its
library loop on a manifest holding the loader's own record
(`net.neoforge.maven:neoforge:21.1.90`), a `net.neoforge.maven:neo:1.0`
record, and a plain third-party record.  The lookup locates the loader's
own record for the hash, but the loop's skip test
(`startsWith 'net.neoforge.maven:neo:'`) does not match the loader's own
name — the character after `neo` is `f`, not `:` — so the loop emits a
library Module for the loader's own record, while it silently skips the
`neo` record, which is not the loader's own.  This contradicts the claim
that the loop emits a Module for every record except the loader's own. -/
theorem processWithoutInstaller_self_record_not_excluded :
    findNeoForgeMdl [selfRecord, neoRecord, asmRecord] = some selfRecord ∧
    strStartsWith selfRecord.name "net.neoforge.maven:neo:" = false ∧
    ((processWithoutInstallerLibsGo evalHash "https://base" (fun _ => [7]) emptyFs
        [selfRecord, neoRecord, asmRecord]).2.map Module.id) =
      ["net.neoforge.maven:neoforge:21.1.90@jar", "org.ow2.asm:asm:9.3@jar"] := by
  refine ⟨by decide, by decide, ?_⟩
  decide

/-- C4 counterexample: the installer-mediated assembly for game version
1.19.0, loader artifact version 41.0.0, with every configured file except
the skippable `client data` present and one manifest library.  The
returned tree root is the `lowcodelanguage` Module — the first entry of
the 1.18+ table — re-tagged as loader-root, not the loader's own
(universal) artifact; and the children sequence has the version-manifest
module (id `41.0.0`) first, not after the remaining resolved entries as
the claim orders them. -/
theorem installer_tree_root_counterexample :
    ((assembleInstallerTree evalHash c4cfg c4manifest c4fs "https://base" ["cache"]
        "neoforge-1.19" "41.0.0").toOption.map fun r =>
      (r.2.id, r.2.type, r.2.subModules.map Module.id)) =
      some ("net.neoforged:lowcodelanguage:41.0.0", ModuleType.NeoForgeHosted,
        ["41.0.0",
         "net.neoforged:fmlcore:41.0.0",
         "net.neoforged:javafmllanguage:41.0.0",
         "net.neoforged:mclanguage:41.0.0",
         "net.neoforged:neoforge:41.0.0:universal",
         "net.neoforged:neoforge:41.0.0:client",
         "net.minecraft:client:1.19.0-20220101.100000:srg",
         "org.ow2.asm:asm:9.3"]) ∧
    ("net.neoforged:lowcodelanguage:41.0.0" ≠
      mavenComponentsToIdentifier NEOFORGE_GROUP NEOFORGE_ARTIFACT "41.0.0"
        (some "universal") none) ∧
    (["41.0.0",
      "net.neoforged:fmlcore:41.0.0",
      "net.neoforged:javafmllanguage:41.0.0",
      "net.neoforged:mclanguage:41.0.0",
      "net.neoforged:neoforge:41.0.0:universal",
      "net.neoforged:neoforge:41.0.0:client",
      "net.minecraft:client:1.19.0-20220101.100000:srg",
      "org.ow2.asm:asm:9.3"] ≠
     ["net.neoforged:fmlcore:41.0.0",
      "net.neoforged:javafmllanguage:41.0.0",
      "net.neoforged:mclanguage:41.0.0",
      "net.neoforged:neoforge:41.0.0:universal",
      "net.neoforged:neoforge:41.0.0:client",
      "net.minecraft:client:1.19.0-20220101.100000:srg",
      "41.0.0",
      "org.ow2.asm:asm:9.3"]) := by
  refine ⟨by decide, by decide, by decide⟩

/-- C4 (amended): after a successful run the first resolved Expected-File
Module becomes the tree root re-tagged with the loader-root type, and its
children are the version-manifest module first, then the remaining
resolved Expected-File Modules, then the manifest library Modules.  (The
root is the loader's own artifact only when the loader's artifact heads
the configured table, as in the 1.20.4+ table; the 1.18–1.20 tables begin
with `lowcodelanguage`.) -/
theorem assembleInstallerTree_shape (H : HashModel) (cfg : ConfigureResult)
    (manifest : VersionManifestFG3) (fs : FileSys) (baseUrl : String)
    (installerOutputDir : FsPath) (versionName artifactVersion : String)
    (genFiles : List GeneratedFile) (fs2 : FileSys) (root : Module) (rest : List Module)
    (fs3 : FileSys) (libs : List Module)
    (hw : applyWildcards cfg.wildcardsInUse manifest.argumentsGame cfg.generatedFiles =
      Except.ok genFiles)
    (hg : processGeneratedFilesGo H baseUrl (installerOutputDir ++ ["libraries"])
      (processVersionManifest H fs baseUrl installerOutputDir versionName artifactVersion).1
      genFiles = Except.ok (fs2, root :: rest))
    (hl : processLibrariesGo H baseUrl (installerOutputDir ++ ["libraries"]) fs2
      manifest.libraries = Except.ok (fs3, libs)) :
    assembleInstallerTree H cfg manifest fs baseUrl installerOutputDir versionName
      artifactVersion =
      Except.ok (fs3,
        { root with type := ModuleType.NeoForgeHosted
                    subModules :=
                      (processVersionManifest H fs baseUrl installerOutputDir versionName
                        artifactVersion).2 :: rest ++ libs }) := by
  simp [assembleInstallerTree, hw, hg, hl]

/-- Witness for the amended C4 theorem at the concrete 1.19 evaluation. -/
theorem assembleInstallerTree_shape_witness :
    assembleInstallerTree evalHash c4cfg c4manifest c4fs "https://base" ["cache"]
      "neoforge-1.19" "41.0.0" =
      Except.ok (c4libResult.1,
        { c4root with type := ModuleType.NeoForgeHosted
                      subModules :=
                        (processVersionManifest evalHash c4fs "https://base" ["cache"]
                          "neoforge-1.19" "41.0.0").2 :: c4rest ++ c4libResult.2 }) :=
  assembleInstallerTree_shape evalHash c4cfg c4manifest c4fs "https://base" ["cache"]
    "neoforge-1.19" "41.0.0" c4genFiles c4gfResult.1 c4root c4rest c4libResult.1 c4libResult.2
    (by rfl) (by rfl) (by rfl)

/-- The scratch file list produced by the copy loop, in queue order. -/
theorem copyQueueToTemp_files (fs : FileSys) (tempDir : FsPath) (q : List PPEntry) :
    (copyQueueToTemp fs tempDir q).2 = q.map fun e => tempDir ++ [fsBasename e.localPath] := by
  induction q generalizing fs with
  | nil => simp [copyQueueToTemp]
  | cons e rest ih => simp [copyQueueToTemp, ih]

/-- The copy loop writes only at scratch paths. -/
theorem copyQueueToTemp_frame (tempDir p : FsPath) :
    ∀ (q : List PPEntry) (fs : FileSys),
      (∀ e ∈ q, p ≠ tempDir ++ [fsBasename e.localPath]) →
      (copyQueueToTemp fs tempDir q).1.files p = fs.files p := by
  intro q
  induction q with
  | nil => intro fs _; rfl
  | cons e rest ih =>
    intro fs hp
    have h1 : p ≠ tempDir ++ [fsBasename e.localPath] := hp e (by simp)
    have hrest : ∀ x ∈ rest, p ≠ tempDir ++ [fsBasename x.localPath] :=
      fun x hx => hp x (by simp [hx])
    simp only [copyQueueToTemp]
    rw [ih _ hrest]
    simp [FileSys.write, h1]

/-- With distinct scratch base names and sources outside the scratch
directory, the copy loop leaves each entry's source bytes at its scratch
path. -/
theorem copyQueueToTemp_content (tempDir : FsPath) :
    ∀ (q : List PPEntry) (fs : FileSys),
      ((q.map fun en => fsBasename en.localPath).Nodup) →
      (∀ en ∈ q, List.isPrefixOf tempDir en.localPath = false) →
      ∀ en ∈ q, (copyQueueToTemp fs tempDir q).1.files (tempDir ++ [fsBasename en.localPath]) =
        some (fs.readFile en.localPath) := by
  intro q
  induction q with
  | nil => intro fs _ _ en hen; cases hen
  | cons e0 rest ih =>
    intro fs hnd hsrc en hen
    simp only [copyQueueToTemp]
    have hnd' : (rest.map fun y => fsBasename y.localPath).Nodup := by
      simp only [List.map_cons, List.nodup_cons] at hnd
      exact hnd.2
    have hb0 : fsBasename e0.localPath ∉ rest.map fun y => fsBasename y.localPath := by
      simp only [List.map_cons, List.nodup_cons] at hnd
      exact hnd.1
    rcases List.mem_cons.mp hen with rfl | hmem
    · have hnotin : ∀ x ∈ rest,
          tempDir ++ [fsBasename en.localPath] ≠ tempDir ++ [fsBasename x.localPath] := by
        intro x hx heq
        have hbb : fsBasename en.localPath = fsBasename x.localPath := by simpa using heq
        exact hb0 (hbb ▸ List.mem_map_of_mem _ hx)
      rw [copyQueueToTemp_frame tempDir _ rest _ hnotin]
      simp [FileSys.write]
    · have hsrc' : ∀ x ∈ rest, List.isPrefixOf tempDir x.localPath = false :=
        fun x hx => hsrc x (by simp [hx])
      rw [ih _ hnd' hsrc' en hmem]
      have hne : en.localPath ≠ tempDir ++ [fsBasename e0.localPath] := by
        intro heq
        have hpre : List.isPrefixOf tempDir en.localPath = true := by
          rw [heq]; exact isPrefixOf_append_self _ _
        rw [hsrc en hen] at hpre
        exact Bool.false_ne_true hpre
      simp [FileSys.readFile, FileSys.write, hne]

/-- The unpack step writes only at stripped sibling paths. -/
theorem extractUnpack_frame (unpackFn : Bytes → Bytes) (p : FsPath) :
    ∀ (files : List FsPath) (fs : FileSys),
      (∀ f ∈ files, p ≠ f.dropLast ++ [stripPackXZ (fsBasename f)]) →
      (extractUnpack unpackFn fs files).files p = fs.files p := by
  intro files
  induction files with
  | nil => intro fs _; rfl
  | cons f rest ih =>
    intro fs hp
    simp only [extractUnpack]
    rw [ih _ (fun x hx => hp x (by simp [hx]))]
    simp [FileSys.write, hp f (by simp)]

/-- With distinct output paths that collide with no input path, the unpack
step leaves, alongside each input, the decompressed bytes of that input's
pre-step content. -/
theorem extractUnpack_content (unpackFn : Bytes → Bytes) :
    ∀ (files : List FsPath) (fs : FileSys),
      ((files.map fun f => f.dropLast ++ [stripPackXZ (fsBasename f)]).Nodup) →
      (∀ f ∈ files, ∀ g ∈ files, f ≠ g.dropLast ++ [stripPackXZ (fsBasename g)]) →
      ∀ f ∈ files,
        (extractUnpack unpackFn fs files).files (f.dropLast ++ [stripPackXZ (fsBasename f)]) =
          some (unpackFn (fs.readFile f)) := by
  intro files
  induction files with
  | nil => intro fs _ _ f hf; cases hf
  | cons f0 rest ih =>
    intro fs hnd hdisj f hf
    simp only [extractUnpack]
    have hnd' : (rest.map fun g => g.dropLast ++ [stripPackXZ (fsBasename g)]).Nodup := by
      simp only [List.map_cons, List.nodup_cons] at hnd
      exact hnd.2
    have hd0 : (f0.dropLast ++ [stripPackXZ (fsBasename f0)]) ∉
        rest.map fun g => g.dropLast ++ [stripPackXZ (fsBasename g)] := by
      simp only [List.map_cons, List.nodup_cons] at hnd
      exact hnd.1
    rcases List.mem_cons.mp hf with rfl | hmem
    · have hnotin : ∀ x ∈ rest,
          f.dropLast ++ [stripPackXZ (fsBasename f)] ≠
            x.dropLast ++ [stripPackXZ (fsBasename x)] := by
        intro x hx heq
        exact hd0 (heq ▸ List.mem_map_of_mem _ hx)
      rw [extractUnpack_frame unpackFn _ rest _ hnotin]
      simp [FileSys.write]
    · have hdisj' : ∀ x ∈ rest, ∀ y ∈ rest,
          x ≠ y.dropLast ++ [stripPackXZ (fsBasename y)] :=
        fun x hx y hy => hdisj x (by simp [hx]) y (by simp [hy])
      rw [ih _ hnd' hdisj' f hmem]
      have hne : f ≠ f0.dropLast ++ [stripPackXZ (fsBasename f0)] :=
        hdisj f (by simp [hmem]) f0 (by simp)
      simp [FileSys.readFile, FileSys.write, hne]

/-- The patch step under distinct Module ids: the matching Module's MD5 is
replaced, every id and every other Module's MD5 is untouched. -/
theorem patchFirstMD5_spec :
    ∀ (mdls : List Module) (entryId md5v : String),
      (mdls.map Module.id).Nodup →
      (patchFirstMD5 mdls entryId md5v).map (fun m => (m.id, m.artifact.MD5)) =
        mdls.map fun m => (m.id, if m.id = entryId then md5v else m.artifact.MD5) := by
  intro mdls
  induction mdls with
  | nil => intro entryId md5v _; rfl
  | cons m rest ih =>
    intro entryId md5v hnd
    have hm : m.id ∉ rest.map Module.id := by
      simp only [List.map_cons, List.nodup_cons] at hnd
      exact hnd.1
    have hnd' : (rest.map Module.id).Nodup := by
      simp only [List.map_cons, List.nodup_cons] at hnd
      exact hnd.2
    by_cases hid : m.id = entryId
    · simp only [patchFirstMD5]
      rw [if_pos hid]
      simp only [List.map_cons]
      refine congrArg₂ _ (by simp [hid]) ?_
      apply List.map_congr_left
      intro x hx
      have hxne : x.id ≠ entryId := by
        intro hx2
        apply hm
        rw [hid, ← hx2]
        exact List.mem_map_of_mem _ hx
      simp [hxne]
    · simp only [patchFirstMD5]
      rw [if_neg hid]
      simp only [List.map_cons, ih entryId md5v hnd']
      simp [hid]

/-- Unfolding of `processPackXZFiles` on a non-empty queue. -/
theorem processPackXZFiles_cons (H : HashModel) (unpackFn : Bytes → Bytes)
    (fs : FileSys) (tempDir : FsPath) (e : PPEntry) (q : List PPEntry) :
    processPackXZFiles H unpackFn fs tempDir (e :: q) =
      ⟨(extractUnpack unpackFn (copyQueueToTemp (fs.removeDir tempDir) tempDir (e :: q)).1
          (copyQueueToTemp (fs.removeDir tempDir) tempDir (e :: q)).2).removeDir tempDir,
       (e :: q).map fun entry =>
         (entry.id, H.md5 ((extractUnpack unpackFn
            (copyQueueToTemp (fs.removeDir tempDir) tempDir (e :: q)).1
            (copyQueueToTemp (fs.removeDir tempDir) tempDir (e :: q)).2).readFile
           (tempDir ++ [stripPackXZ (fsBasename entry.localPath)]))),
       [(copyQueueToTemp (fs.removeDir tempDir) tempDir (e :: q)).2]⟩ := by
  simp [processPackXZFiles]

/-- C7: batch decompression post-processing.  With an empty queue nothing
happens: the disk is untouched, the accumulator is empty and the external
tool is never invoked.  With a non-empty queue — whose scratch base names
are distinct, whose stripped output names are distinct and collide with no
scratch base name, and whose source files lie outside the scratch
directory — the external unpack tool is invoked exactly once, over the
scratch copy of every queued file in queue order; the accumulator pairs
each entry's Module id with the MD5 of the decompressed
(`unpackFn`-transformed) bytes of that entry's file — a secondary hash
computed after, and from different bytes than, the compressed-form hash;
and afterwards no path below the scratch directory exists.  Finally, the
caller-side patch writes an accumulator pair's MD5 into the Module with
that id, leaving ids and every other Module untouched. -/
theorem processPackXZFiles_spec (H : HashModel) (unpackFn : Bytes → Bytes)
    (fs : FileSys) (tempDir : FsPath) (e : PPEntry) (q : List PPEntry)
    (hb : ((e :: q).map fun en => fsBasename en.localPath).Nodup)
    (hstrip : ((e :: q).map fun en => stripPackXZ (fsBasename en.localPath)).Nodup)
    (hdisj : ∀ en ∈ e :: q, ∀ en' ∈ e :: q,
      fsBasename en.localPath ≠ stripPackXZ (fsBasename en'.localPath))
    (hsrc : ∀ en ∈ e :: q, List.isPrefixOf tempDir en.localPath = false) :
    (processPackXZFiles H unpackFn fs tempDir [] = ⟨fs, [], []⟩) ∧
    ((processPackXZFiles H unpackFn fs tempDir (e :: q)).invocations =
      [(e :: q).map fun en => tempDir ++ [fsBasename en.localPath]]) ∧
    ((processPackXZFiles H unpackFn fs tempDir (e :: q)).accumulator =
      (e :: q).map fun en => (en.id, H.md5 (unpackFn (fs.readFile en.localPath)))) ∧
    (∀ sub : FsPath,
      (processPackXZFiles H unpackFn fs tempDir (e :: q)).fs.files (tempDir ++ sub) = none) ∧
    (∀ (mdls : List Module) (entryId md5v : String),
      (mdls.map Module.id).Nodup →
      (patchFirstMD5 mdls entryId md5v).map (fun m => (m.id, m.artifact.MD5)) =
        mdls.map fun m => (m.id, if m.id = entryId then md5v else m.artifact.MD5)) := by
  refine ⟨rfl, ?_, ?_, ?_, patchFirstMD5_spec⟩
  · rw [processPackXZFiles_cons]
    rw [copyQueueToTemp_files]
  · rw [processPackXZFiles_cons]
    have hfiles := copyQueueToTemp_files (fs.removeDir tempDir) tempDir (e :: q)
    have hmapdest :
        (((e :: q).map fun en => tempDir ++ [fsBasename en.localPath]).map
          fun f => f.dropLast ++ [stripPackXZ (fsBasename f)]) =
        (e :: q).map fun en => tempDir ++ [stripPackXZ (fsBasename en.localPath)] := by
      rw [List.map_map]
      apply List.map_congr_left
      intro en _
      simp [fsBasename, List.dropLast_concat]
    have hdest_nodup : ((((e :: q).map fun en => tempDir ++ [fsBasename en.localPath]).map
        fun f => f.dropLast ++ [stripPackXZ (fsBasename f)])).Nodup := by
      rw [hmapdest]
      rw [show ((e :: q).map fun en => tempDir ++ [stripPackXZ (fsBasename en.localPath)]) =
        ((e :: q).map fun en => stripPackXZ (fsBasename en.localPath)).map
          (fun s => tempDir ++ [s]) from by rw [List.map_map]; rfl]
      exact hstrip.map fun a b hab => by simpa using hab
    have hdisjE : ∀ f ∈ ((e :: q).map fun en => tempDir ++ [fsBasename en.localPath]),
        ∀ g ∈ ((e :: q).map fun en => tempDir ++ [fsBasename en.localPath]),
        f ≠ g.dropLast ++ [stripPackXZ (fsBasename g)] := by
      intro f hf g hg heq
      obtain ⟨en, hen, rfl⟩ := List.mem_map.mp hf
      obtain ⟨en', hen', rfl⟩ := List.mem_map.mp hg
      rw [show ((tempDir ++ [fsBasename en'.localPath]).dropLast ++
        [stripPackXZ (fsBasename (tempDir ++ [fsBasename en'.localPath]))]) =
        tempDir ++ [stripPackXZ (fsBasename en'.localPath)] from by
          simp [fsBasename, List.dropLast_concat]] at heq
      have hbs : fsBasename en.localPath = stripPackXZ (fsBasename en'.localPath) := by
        simpa using heq
      exact hdisj en hen en' hen' hbs
    rw [hfiles]
    have hext := extractUnpack_content unpackFn
      ((e :: q).map fun en => tempDir ++ [fsBasename en.localPath])
      (copyQueueToTemp (fs.removeDir tempDir) tempDir (e :: q)).1 hdest_nodup hdisjE
    have hcopy := copyQueueToTemp_content tempDir (e :: q) (fs.removeDir tempDir) hb hsrc
    apply List.map_congr_left
    intro en hen
    have hf : (tempDir ++ [fsBasename en.localPath]) ∈
        ((e :: q).map fun x => tempDir ++ [fsBasename x.localPath]) :=
      List.mem_map_of_mem _ hen
    have h1 := hext _ hf
    rw [show ((tempDir ++ [fsBasename en.localPath]).dropLast ++
      [stripPackXZ (fsBasename (tempDir ++ [fsBasename en.localPath]))]) =
      tempDir ++ [stripPackXZ (fsBasename en.localPath)] from by
        simp [fsBasename, List.dropLast_concat]] at h1
    have h3 : (copyQueueToTemp (fs.removeDir tempDir) tempDir (e :: q)).1.readFile
        (tempDir ++ [fsBasename en.localPath]) =
        (fs.removeDir tempDir).readFile en.localPath := by
      simp [FileSys.readFile, hcopy en hen]
    have hsrcP : ¬(tempDir <+: en.localPath) := by
      intro hp
      have hpe : List.isPrefixOf tempDir en.localPath = true := by simpa using hp
      rw [hsrc en hen] at hpe
      exact Bool.false_ne_true hpe
    have h4 : (fs.removeDir tempDir).readFile en.localPath = fs.readFile en.localPath := by
      simp [FileSys.removeDir, FileSys.readFile, hsrcP]
    have h1r : (extractUnpack unpackFn
        (copyQueueToTemp (fs.removeDir tempDir) tempDir (e :: q)).1
        ((e :: q).map fun en => tempDir ++ [fsBasename en.localPath])).readFile
        (tempDir ++ [stripPackXZ (fsBasename en.localPath)]) =
        unpackFn ((copyQueueToTemp (fs.removeDir tempDir) tempDir (e :: q)).1.readFile
          (tempDir ++ [fsBasename en.localPath])) := by
      simp only [FileSys.readFile]
      rw [h1]
      rfl
    rw [h1r, h3, h4]
  · intro sub
    rw [processPackXZFiles_cons]
    simp [FileSys.removeDir, isPrefixOf_append_self]

/-- Witness for the C7 theorem at a concrete two-entry queue: the
accumulator pairs each entry's Module id with the MD5 of the decompressed
bytes (`md5-3`, the hash of the 3-byte decompressed buffers — distinct
from `md5-2`, the hash of the 2-byte compressed buffers). -/
theorem processPackXZFiles_spec_witness :
    (processPackXZFiles evalHash evalUnpack c7fs ["temp"] (c7e :: [c7e2])).accumulator =
      [("g:a:1@jar.pack.xz", "md5-3"), ("g:b:2@jar.pack.xz", "md5-3")] := by
  rw [(processPackXZFiles_spec evalHash evalUnpack c7fs ["temp"] c7e [c7e2]
    (by decide) (by decide) (by decide) (by decide)).2.2.1]
  decide

/-- C8: the advisory table `patchMatrix` holds no entry for any minor
version in the vulnerable range 12..18, so for a vulnerable game version
(here 1.18.2) the gate's decision is `!versionGte lv undefined` — computed
from a missing table value, not from a minimum safe loader version for
that game version.  In particular, with any model of the missing
`versionGte` the outcome is independent of any table minimum, contradicting
the claim that the advisory fires exactly when the loader version is below
the table's minimum for the game version. -/
theorem checkSecurity_vulnerable_range_misses_patchMatrix :
    ((List.range' 12 7).all fun minor => (patchMatrix minor).isNone) = true ∧
    (∀ (U : VersionUtilModel) (lv : String),
      checkSecurityFires U ⟨1, 18, 2⟩ lv = !(U.versionGte lv none)) := by
  refine ⟨by decide, fun U lv => ?_⟩
  simp [checkSecurityFires, patchMatrix]

end TR18SNebula
